import Mathlib

/-!
Shallow embedding of the real-time audio-to-action pipeline of the
`brex-hack` backend: the audio segmenter (`app/services/audio_service.py`),
the transcription adapter (`app/clients/whisper_client.py`), the session
registry (`app/services/session_service.py`) and the per-connection
control loop (`app/services/websocket_service.py`), together with
theorems settling the specification claims about them.

Machine conventions: raw bytes are `Nat`s in a `List`, wall-clock
instants are `Int`s (so `now - t` is exact subtraction as for Python
`datetime` differences), Python `None` is `Option.none`, and functions
that read the clock or generate a UUID take the value explicitly.
-/

namespace BrexHack

/-- Python whitespace test used by `str.strip()` and `str.split()`
(ASCII whitespace; the rare non-ASCII Unicode whitespace Python also
strips is not exercised by any claim and is not modelled). -/
def isPySpace (c : Char) : Bool :=
  c == ' ' || c == '\t' || c == '\n' || c == '\r' || c == '\x0b' || c == '\x0c'

/-- List-level `str.strip()`: drop whitespace from both ends. -/
def pyStripL (s : List Char) : List Char :=
  ((s.dropWhile isPySpace).reverse.dropWhile isPySpace).reverse

/-- Python `text.strip()` on strings. -/
def pyStrip (s : String) : String :=
  ⟨pyStripL s.data⟩

/-- Accumulator-style splitter behind `pyWords`; `acc` holds the current
word reversed. -/
def pyWordsAux : List Char → List Char → List String
  | [], acc => if acc.isEmpty then [] else [⟨acc.reverse⟩]
  | c :: cs, acc =>
    if isPySpace c then
      if acc.isEmpty then pyWordsAux cs [] else (⟨acc.reverse⟩ : String) :: pyWordsAux cs []
    else
      pyWordsAux cs (c :: acc)

/-- Python `text.split()` with no separator: maximal runs of
non-whitespace characters, leading/trailing whitespace ignored. -/
def pyWords (s : String) : List String :=
  pyWordsAux s.data []

/-- Python `text.endswith(e)` for a one-character suffix `e`, which is
how `_is_sentence_complete` uses it. -/
def pyEndsWith1 (t : String) (c : Char) : Bool :=
  t.data.getLast? == some c

/-- Sentence-terminator set of `WhisperClient._is_sentence_complete`
(`whisper_client.py` line 115): ASCII terminators and their full-width
CJK equivalents. -/
def sentence_endings : List Char := ['.', '!', '?', '。', '！', '？']

/-- Embedding of `WhisperClient._is_sentence_complete`
(`whisper_client.py` lines 104-124): empty text is not final; text is
stripped; stripped text shorter than 20 characters is not final; text
ending in a sentence terminator is final; text of more than 25
whitespace-delimited words is final; everything else is not final. -/
def is_sentence_complete (text : String) : Bool :=
  if text = "" then false
  else
    let t := pyStrip text
    if t.length < 20 then false
    else if sentence_endings.any (fun e => pyEndsWith1 t e) then true
    else if 25 < (pyWords t).length then true
    else false

/-- Hysteresis state of `AudioProcessor` (`audio_service.py` lines
42-44): consecutive speech-window and silence-window counters plus the
sticky speech-active flag. -/
structure VadState where
  speech_frames : Nat
  silence_frames : Nat
  is_speech_active : Bool
deriving DecidableEq, Repr

/-- Fresh hysteresis state as set by `AudioProcessor.__init__`. -/
def VadState.init : VadState := ⟨0, 0, false⟩

/-- Speech count of the per-sub-frame detector loop
(`audio_service.py` lines 70-79).  The external `webrtcvad` verdicts
for the full-size sub-frames of the window are supplied as a list;
`some b` is a verdict, `none` is a detector exception, which makes
`_detect_speech` return `True` immediately (fail open) without touching
the counters — rendered here as a `none` overall count. -/
def countSpeech : List (Option Bool) → Option Nat
  | [] => some 0
  | some b :: rest => (countSpeech rest).map (fun n => if b then n + 1 else n)
  | none :: _ => none

/-- Embedding of `AudioProcessor._detect_speech` (`audio_service.py`
lines 65-94) restricted to the VAD-enabled path (the early
`return True` of lines 66-67 only fires when VAD is off, in which case
the caller never invokes this).  `results` are the detector verdicts
for the sub-frames of the window; the float test
`speech_ratio > 0.3` on `speech_count / len(frames)` is rendered
exactly as `10 * speech_count > 3 * len frames` (with the Python
convention that an empty frame list gives ratio 0).  Returns the
updated state and the returned boolean. -/
def detect_speech (results : List (Option Bool)) (st : VadState) : VadState × Bool :=
  match countSpeech results with
  | none => (st, true)
  | some speech_count =>
    if 10 * speech_count > 3 * results.length then
      let sf := st.speech_frames + 1
      let active := if sf ≥ 2 then true else st.is_speech_active
      (⟨sf, 0, active⟩, active)
    else
      let sif := st.silence_frames + 1
      let active := if sif ≥ 30 then false else st.is_speech_active
      (⟨0, sif, active⟩, active)

/-- Window is classified above the speech-ratio threshold
(`speech_ratio > 0.3`, `audio_service.py` line 83) and raised no
detector exception. -/
def isSpeechWindow (results : List (Option Bool)) : Bool :=
  match countSpeech results with
  | some c => 10 * c > 3 * results.length
  | none => false

/-- Window raised no detector exception (its ratio was computed). -/
def windowCounted (results : List (Option Bool)) : Bool :=
  (countSpeech results).isSome

/-- Feed a sequence of windows (each given by its detector verdicts)
through `_detect_speech`, keeping only the final hysteresis state. -/
def runVad (st : VadState) (windows : List (List (Option Bool))) : VadState :=
  windows.foldl (fun st w => (detect_speech w st).1) st

/-- Segmenter state of `AudioProcessor` (`audio_service.py` lines
10-46): the configured window size in bytes
(`buffer_size = sample_rate * buffer_duration_ms / 1000 * 2`), the VAD
enable flag, the pending byte buffer, and the hysteresis state. -/
structure AudioProcessor where
  buffer_size : Nat
  vad_enabled : Bool
  audio_buffer : List Nat
  vad : VadState
deriving DecidableEq, Repr

/-- Fresh segmenter with the given window size and VAD flag, as built
by `AudioProcessor.__init__`. -/
def AudioProcessor.init (buffer_size : Nat) (vad_enabled : Bool) : AudioProcessor :=
  ⟨buffer_size, vad_enabled, [], VadState.init⟩

/-- Embedding of `AudioProcessor.add_audio_chunk` (`audio_service.py`
lines 48-63): append the chunk to the pending buffer; once the buffer
holds at least one window, slice off exactly `buffer_size` bytes,
keep the remainder, and return the window — gated by `_detect_speech`
when VAD is enabled (the `elif self.is_speech_active` of line 58 reads
the flag as just updated by `_detect_speech`).  `detector` abstracts
`_chunk_audio` plus the external per-sub-frame `webrtcvad` calls for a
given window. -/
def add_audio_chunk (detector : List Nat → List (Option Bool))
    (p : AudioProcessor) (chunk : List Nat) : AudioProcessor × Option (List Nat) :=
  let buf := p.audio_buffer ++ chunk
  if p.buffer_size ≤ buf.length then
    let window := buf.take p.buffer_size
    let rest := buf.drop p.buffer_size
    if p.vad_enabled then
      let (vad', speech) := detect_speech (detector window) p.vad
      let p' : AudioProcessor := ⟨p.buffer_size, p.vad_enabled, rest, vad'⟩
      if speech then (p', some window)
      else if vad'.is_speech_active then (p', some window)
      else (p', none)
    else (⟨p.buffer_size, p.vad_enabled, rest, p.vad⟩, some window)
  else (⟨p.buffer_size, p.vad_enabled, buf, p.vad⟩, none)

/-- Feed a sequence of chunks through `add_audio_chunk`, collecting the
emitted windows in order. -/
def run_chunks (detector : List Nat → List (Option Bool))
    (p : AudioProcessor) : List (List Nat) → AudioProcessor × List (List Nat)
  | [] => (p, [])
  | c :: cs =>
    let (p', w) := add_audio_chunk detector p c
    let (p'', ws) := run_chunks detector p' cs
    (p'', w.toList ++ ws)

/-- Record stored in `Session.executed_actions`
(`session_service.py` lines 39-47): type, description, optional GitHub
reference and timestamp. -/
structure ActionRecord where
  action_type : String
  description : String
  github_id : Option String
  timestamp : Int
deriving DecidableEq, Repr

/-- Embedding of `Session` (`session_service.py` lines 9-24).
Connection handles are abstract `Nat` identifiers (`Option` because
`pause` sets `self.websocket = None`); metadata is an association list
of string pairs. -/
structure Session where
  session_id : String
  websocket : Option Nat
  connected_at : Int
  last_activity : Int
  paused_at : Option Int
  full_transcript : List String
  current_buffer : String
  audio_buffer : List Nat
  metadata : List (String × String)
  is_active : Bool
  is_paused : Bool
  word_history : List String
  executed_actions : List (String × ActionRecord)
  last_action_id : Option String
deriving DecidableEq, Repr

/-- Constructor defaults of `Session.__init__` (`session_service.py`
lines 10-24); `now` stands for the two `datetime.now()` reads. -/
def Session.new (session_id : String) (websocket : Nat) (now : Int) : Session :=
  { session_id := session_id
    websocket := some websocket
    connected_at := now
    last_activity := now
    paused_at := none
    full_transcript := []
    current_buffer := ""
    audio_buffer := []
    metadata := []
    is_active := true
    is_paused := false
    word_history := []
    executed_actions := []
    last_action_id := none }

/-- Embedding of `Session.add_to_transcript` (`session_service.py`
lines 29-34): a non-blank final is stripped, appended to the transcript
history, and the current buffer is cleared; anything else replaces the
current buffer. -/
def add_to_transcript (s : Session) (text : String) (is_final : Bool) : Session :=
  if is_final && pyStrip text ≠ "" then
    { s with full_transcript := s.full_transcript ++ [pyStrip text], current_buffer := "" }
  else
    { s with current_buffer := text }

/-- Embedding of `Session.pause` (`session_service.py` lines 53-56). -/
def Session.pause (s : Session) (now : Int) : Session :=
  { s with is_paused := true, paused_at := some now, websocket := none }

/-- Embedding of `Session.resume` (`session_service.py` lines 58-62). -/
def Session.resume (s : Session) (websocket : Nat) (now : Int) : Session :=
  { s with is_paused := false, paused_at := none,
           websocket := some websocket, last_activity := now }

/-- Session registry, a Python `dict` rendered as an insertion-ordered
association list with unique keys in every reachable state. -/
abbrev Registry := List (String × Session)

/-- Python `self.sessions.get(k)`: value of the first entry keyed `k`. -/
def dictGet : Registry → String → Option Session
  | [], _ => none
  | e :: rest, k => if e.1 = k then some e.2 else dictGet rest k

/-- Python `self.sessions[k] = v`: overwrite the entry in place if the
key exists, else append at the end (dict insertion order). -/
def dictSet : Registry → String → Session → Registry
  | [], k, v => [(k, v)]
  | e :: rest, k, v => if e.1 = k then (k, v) :: rest else e :: dictSet rest k v

/-- Python `del self.sessions[k]` (under the unique-key invariant). -/
def dictErase : Registry → String → Registry
  | [], _ => []
  | e :: rest, k => if e.1 = k then dictErase rest k else e :: dictErase rest k

/-- Embedding of `SessionManager` (`session_service.py` lines 77-81):
the registry plus the activity timeout (a duration, in the same `Int`
unit as timestamps). -/
structure SessionManager where
  sessions : Registry
  session_timeout : Int
deriving DecidableEq, Repr

/-- New-session construction of `create_or_resume_session` lines
109-112: build the session under the chosen id and attach the metadata
when the argument is truthy (non-`None`, non-empty). -/
def new_session_with (id : String) (websocket : Nat) (now : Int)
    (metadata : List (String × String)) : Session :=
  let s := Session.new id websocket now
  if metadata ≠ [] then { s with metadata := metadata } else s

/-- Embedding of `SessionManager.create_or_resume_session`
(`session_service.py` lines 95-115).  `fresh_id` stands for the
`uuid.uuid4()` draw; `now` for `datetime.now()`.  Python truthiness:
`if session_id` is false for `None` and for the empty string (so an
empty-string id never resumes and never names the new session).
Returns the updated manager and the `(session, is_resumed)` pair the
method returns. -/
def create_or_resume_session (m : SessionManager) (websocket : Nat)
    (session_id : Option String) (metadata : List (String × String))
    (now : Int) (fresh_id : String) : SessionManager × Session × Bool :=
  match session_id, dictGet m.sessions (session_id.getD "") with
  | some sid, some s =>
    if sid ≠ "" ∧ s.is_paused then
      let s' := s.resume websocket now
      ({ m with sessions := dictSet m.sessions sid s' }, s', true)
    else
      let new_id := if sid ≠ "" then sid else fresh_id
      let s' := new_session_with new_id websocket now metadata
      ({ m with sessions := dictSet m.sessions new_id s' }, s', false)
  | some sid, none =>
    let new_id := if sid ≠ "" then sid else fresh_id
    let s' := new_session_with new_id websocket now metadata
    ({ m with sessions := dictSet m.sessions new_id s' }, s', false)
  | none, _ =>
    let s' := new_session_with fresh_id websocket now metadata
    ({ m with sessions := dictSet m.sessions fresh_id s' }, s', false)

/-- Embedding of `SessionManager.get_session` (`session_service.py`
lines 121-125): look up the session and refresh its `last_activity`
(the in-place mutation is rendered as writing the updated session
back). -/
def get_session (m : SessionManager) (sid : String) (now : Int) :
    SessionManager × Option Session :=
  match dictGet m.sessions sid with
  | some s =>
    let s' := { s with last_activity := now }
    ({ m with sessions := dictSet m.sessions sid s' }, some s')
  | none => (m, none)

/-- Embedding of `SessionManager.pause_session` (`session_service.py`
lines 134-141). -/
def pause_session (m : SessionManager) (sid : String) (now : Int) :
    SessionManager × Bool :=
  match dictGet m.sessions sid with
  | some s => ({ m with sessions := dictSet m.sessions sid (s.pause now) }, true)
  | none => (m, false)

/-- Embedding of `SessionManager.remove_session` (`session_service.py`
lines 143-150); the `is_active = False` write lands on the object just
before it is dropped from the registry. -/
def remove_session (m : SessionManager) (sid : String) : SessionManager × Bool :=
  match dictGet m.sessions sid with
  | some _ => ({ m with sessions := dictErase m.sessions sid }, true)
  | none => (m, false)

/-- Eviction test applied to one session by the reaper
(`session_service.py` lines 168-176): a paused session with a stamp is
evicted when `now - paused_at` strictly exceeds the persistence window;
a non-paused session when `now - last_activity` strictly exceeds the
activity timeout. -/
def reapCondition (now persistence timeout : Int) (s : Session) : Bool :=
  if s.is_paused then
    match s.paused_at with
    | some pt => now - pt > persistence
    | none => false
  else now - s.last_activity > timeout

/-- One `inactive_sessions` collection pass of the reaper
(`session_service.py` lines 166-176), in registry order. -/
def inactiveIds (m : Registry) (now persistence timeout : Int) : List String :=
  m.filterMap (fun e => if reapCondition now persistence timeout e.2 then some e.1 else none)

/-- Removal loop body of the reaper (`session_service.py` lines
178-186): re-fetch the session, attempt `websocket.close` when a handle
is present (the attempt is recorded; a failing close is swallowed by
`except: pass` and so cannot influence anything), then
`remove_session`.  The state is the registry paired with the list of
handles on which close was attempted. -/
def reapOne (st : Registry × List Nat) (sid : String) : Registry × List Nat :=
  match dictGet st.1 sid with
  | some s =>
    (dictErase st.1 sid,
     st.2 ++ (match s.websocket with | some w => [w] | none => []))
  | none => (dictErase st.1 sid, st.2)

/-- One full pass of `SessionManager._cleanup_inactive_sessions`
(`session_service.py` lines 165-186): collect the inactive ids at one
`datetime.now()` read, then close-and-remove each.  Returns the new
registry and the close attempts in order. -/
def cleanup_pass (m : Registry) (now persistence timeout : Int) : Registry × List Nat :=
  (inactiveIds m now persistence timeout).foldl reapOne (m, [])

/-- Result of `json.loads` on a control frame as the loop uses it:
`data.get("command")` is the only field consulted in steady state
(`websocket_service.py` line 172). -/
structure ControlData where
  command : Option String
deriving DecidableEq, Repr

/-- Events the loop sends back over the connection while handling one
frame (`websocket.send_json` calls, identified by their `type`
field). -/
inductive ServerEvent
  | session_paused
  | transcript_snapshot
  | transcript_cleared
  | session_info
deriving DecidableEq, Repr

/-- Embedding of `WebSocketService._handle_control_message`
(`websocket_service.py` lines 171-211): `stop_recording` sends the
paused acknowledgment and returns `True` (stop); `get_transcript`,
`clear_transcript` and `get_session_info` send their snapshots and
return `False`; any other command falls through to `return False` with
no effect — a no-op. -/
def handle_control_message (s : Session) (data : ControlData) :
    Session × Bool × List ServerEvent :=
  match data.command with
  | some "stop_recording" => (s, true, [ServerEvent.session_paused])
  | some "get_transcript" => (s, false, [ServerEvent.transcript_snapshot])
  | some "clear_transcript" =>
    ({ s with full_transcript := [], current_buffer := "" },
     false, [ServerEvent.transcript_cleared])
  | some "get_session_info" => (s, false, [ServerEvent.session_info])
  | _ => (s, false, [])

/-- Fate of the receive loop after handling one text frame. -/
inductive LoopOutcome
  /-- Loop goes on to the next `websocket.receive()`. -/
  | next (s : Session) (events : List ServerEvent)
  /-- Loop breaks via `should_stop` (explicit stop command). -/
  | stop (s : Session) (events : List ServerEvent)
  /-- An exception escaped the loop body to the outer
  `except Exception` handler (`websocket_service.py` lines 144-157):
  the loop is over and the shutdown path (error event, pause) runs. -/
  | raised (s : Session) (events : List ServerEvent)
deriving DecidableEq, Repr

/-- Steady-state handling of one inbound text frame
(`websocket_service.py` lines 89-93): `json.loads` on the payload
(`parse` abstracts the stdlib parser, `none` = raise), then
`_handle_control_message`; a parse exception propagates out of the
`while True`, ending the loop. -/
def loop_step_text (parse : String → Option ControlData)
    (s : Session) (payload : String) : LoopOutcome :=
  match parse payload with
  | none => LoopOutcome.raised s []
  | some data =>
    let (s', should_stop, evs) := handle_control_message s data
    if should_stop then LoopOutcome.stop s' evs else LoopOutcome.next s' evs

/-- Observable ordering of the suspension points of the loop body while it
handles one transcribed window (`websocket_service.py` lines
116-141 and line 87 of the following iteration). -/
inductive LoopEvent
  | sent_transcription
  | sent_sentence_complete
  | action_dispatch_started
  | action_dispatch_completed
  | read_next_frame
deriving DecidableEq, Repr

/-- Trace of the loop body after `transcribe_stream` returned
`(text, is_final)` (`websocket_service.py` lines 116-141): when text is
non-empty the transcription event is sent; when additionally final, the
`sentence_complete` event is sent and then
`await self._extract_and_execute_actions(...)` runs — an `await`, so
the dispatch both starts and completes before control returns to the
top of the `while True` and the next `websocket.receive()` happens. -/
def loop_body_trace (text : String) (is_final : Bool) : List LoopEvent :=
  (if text ≠ "" then
    [LoopEvent.sent_transcription] ++
    (if is_final then
      [LoopEvent.sent_sentence_complete,
       LoopEvent.action_dispatch_started,
       LoopEvent.action_dispatch_completed]
     else [])
   else []) ++ [LoopEvent.read_next_frame]

/-- Python `sep.join(xs)`. -/
def pyJoin (sep : String) : List String → String
  | [] => ""
  | [x] => x
  | x :: y :: xs => x ++ sep ++ pyJoin sep (y :: xs)

/-- Bounding slice `context_words[-100:] if len(context_words) > 100
else context_words` of `whisper_client.py` line 48 (also the effect of
the plain `[-100:]` slice on line 96). -/
def contextTail (cw : List String) : List String :=
  if cw.length > 100 then cw.drop (cw.length - 100) else cw

/-- One segment as returned by the whisper engine: its text plus the
optional quality metrics `transcribe_stream` inspects (`hasattr`
checks); the float metrics are rendered as rationals. -/
structure WSegment where
  text : String
  no_speech_prob : Option ℚ
  compression_ratio : Option ℚ
deriving DecidableEq

/-- Quality rejection applied to one segment (`whisper_client.py`
lines 73-84): a present `no_speech_prob` above 0.6 or a present
`compression_ratio` above 2.4 makes the whole call return the empty
non-final result. -/
def segmentRejected (seg : WSegment) : Bool :=
  (match seg.no_speech_prob with
    | some p => p > (6 : ℚ) / 10
    | none => false) ||
  (match seg.compression_ratio with
    | some r => r > (24 : ℚ) / 10
    | none => false)

/-- Embedding of `WhisperClient.transcribe_stream` (`whisper_client.py`
lines 26-102).  `engine` abstracts the file plumbing plus
`self.model.transcribe`, keyed by the `initial_prompt` it is given;
`none` means the call raised, landing in the `except` clause of lines
100-102 — by which point the local `context_words` has already been
defaulted and truncated (lines 44-48), so the except clause returns the
truncated copy, not the original of the caller.  The success path applies
the quality filter, joins the stripped segment texts, decides finality
with `_is_sentence_complete`, and extends-then-rebounds the context on
a non-blank final. -/
def transcribe_stream (engine : String → Option (List WSegment))
    (context_words : Option (List String)) : String × Bool × List String :=
  let cw := contextTail (context_words.getD [])
  let initial_prompt := if cw ≠ [] then pyJoin " " cw else ""
  match engine initial_prompt with
  | none => ("", false, if cw ≠ [] then cw else [])
  | some segments =>
    if segments = [] then ("", false, cw)
    else if segments.any segmentRejected then ("", false, cw)
    else
      let full_text := pyJoin " " (segments.map (fun seg => pyStrip seg.text))
      let is_final := is_sentence_complete full_text
      let updated :=
        if is_final && pyStrip full_text ≠ "" then
          contextTail (cw ++ pyWords full_text)
        else cw
      (full_text, is_final, updated)

example : is_sentence_complete "This is a longer sentence." = true := by decide
example : is_sentence_complete "This is a sentence." = false := by decide
example : is_sentence_complete "hi" = false := by decide
example : is_sentence_complete "hi!" = false := by decide
example : is_sentence_complete
    "a b c d e f g h i j k l m n o p q r s t u v w x y z" = true := by decide
example : is_sentence_complete "one two three four five six" = false := by decide

/-- Windowing invariant of `add_audio_chunk` with VAD disabled: the
pending buffer stays strictly below the window size, every emitted
window is exactly the window size, and the emitted windows followed by
the pending buffer reproduce the input bytes in order. -/
theorem run_chunks_vadoff_inv (det : List Nat → List (Option Bool)) :
    ∀ (chunks : List (List Nat)) (p : AudioProcessor),
    p.vad_enabled = false →
    p.audio_buffer.length < p.buffer_size →
    (∀ c ∈ chunks, c.length ≤ p.buffer_size) →
    (run_chunks det p chunks).1.buffer_size = p.buffer_size ∧
    (run_chunks det p chunks).1.audio_buffer.length < p.buffer_size ∧
    (∀ w ∈ (run_chunks det p chunks).2, w.length = p.buffer_size) ∧
    (run_chunks det p chunks).2.flatten ++ (run_chunks det p chunks).1.audio_buffer
      = p.audio_buffer ++ chunks.flatten := by
  intro chunks
  induction chunks with
  | nil =>
    intro p hv hb _
    exact ⟨rfl, hb, by simp [run_chunks], by simp [run_chunks]⟩
  | cons c cs ih =>
    intro p hv hb hc
    have hcW : c.length ≤ p.buffer_size := hc c (List.mem_cons_self _ _)
    have hcs : ∀ x ∈ cs, x.length ≤ p.buffer_size := fun x hx => hc x (List.mem_cons_of_mem _ hx)
    have hlenac : (p.audio_buffer ++ c).length = p.audio_buffer.length + c.length :=
      List.length_append _ _
    by_cases hfull : p.buffer_size ≤ (p.audio_buffer ++ c).length
    · have hstep : add_audio_chunk det p c =
          (⟨p.buffer_size, p.vad_enabled, (p.audio_buffer ++ c).drop p.buffer_size, p.vad⟩,
           some ((p.audio_buffer ++ c).take p.buffer_size)) := by
        simp only [add_audio_chunk]
        rw [if_pos hfull]
        simp [hv]
      have hrest : ((p.audio_buffer ++ c).drop p.buffer_size).length < p.buffer_size := by
        rw [List.length_drop]
        omega
      have hwin : ((p.audio_buffer ++ c).take p.buffer_size).length = p.buffer_size := by
        rw [List.length_take]
        exact Nat.min_eq_left hfull
      obtain ⟨i1, i2, i3, i4⟩ :=
        ih ⟨p.buffer_size, p.vad_enabled, (p.audio_buffer ++ c).drop p.buffer_size, p.vad⟩
          hv hrest hcs
      simp only [run_chunks, hstep]
      refine ⟨i1, i2, ?_, ?_⟩
      · intro w hw
        simp only [Option.toList_some, List.singleton_append, List.mem_cons] at hw
        rcases hw with hw | hw
        · subst hw; exact hwin
        · exact i3 w hw
      · simp only [Option.toList_some, List.singleton_append, List.flatten_cons]
        rw [List.append_assoc, i4, ← List.append_assoc, List.take_append_drop,
          List.append_assoc]
    · have hstep : add_audio_chunk det p c =
          (⟨p.buffer_size, p.vad_enabled, p.audio_buffer ++ c, p.vad⟩, none) := by
        simp only [add_audio_chunk]
        rw [if_neg hfull]
      have hrest : (p.audio_buffer ++ c).length < p.buffer_size := by omega
      obtain ⟨i1, i2, i3, i4⟩ :=
        ih ⟨p.buffer_size, p.vad_enabled, p.audio_buffer ++ c, p.vad⟩ hv hrest hcs
      simp only [run_chunks, hstep]
      refine ⟨i1, i2, i3, ?_⟩
      simp only [Option.toList_none, List.nil_append, List.flatten_cons]
      rw [i4, List.append_assoc]

/-- Lengths: a list of lists each of length `W` flattens to length
`count * W`. -/
theorem flatten_length_const {ws : List (List Nat)} {W : Nat}
    (h : ∀ w ∈ ws, w.length = W) : ws.flatten.length = ws.length * W := by
  induction ws with
  | nil => simp
  | cons w rest ih =>
    have hw : w.length = W := h w (by simp)
    have hr := ih (fun x hx => h x (by simp [hx]))
    simp [List.flatten_cons, hw, hr, Nat.succ_mul]
    omega

/-- C1 (amended): with VAD disabled, provided every individual chunk is
at most `window_size` bytes, the Segmenter emits windows of exactly
`window_size` bytes in input order, keeps the partial remainder pending
(never emitted short, always shorter than a window), and whenever the
total input length is a multiple of `window_size` it has emitted
exactly `total_length / window_size` windows with an empty pending
buffer.  (The per-chunk bound is necessary: `add_audio_chunk` drains at
most one window per call, see `c1_counterexample`.) -/
theorem c1_segmenter_amended (det : List Nat → List (Option Bool)) (W : Nat)
    (chunks : List (List Nat)) (hW : 0 < W) (hc : ∀ c ∈ chunks, c.length ≤ W) :
    (∀ w ∈ (run_chunks det (AudioProcessor.init W false) chunks).2, w.length = W) ∧
    (run_chunks det (AudioProcessor.init W false) chunks).2.flatten ++
      (run_chunks det (AudioProcessor.init W false) chunks).1.audio_buffer = chunks.flatten ∧
    (run_chunks det (AudioProcessor.init W false) chunks).1.audio_buffer.length < W ∧
    (chunks.flatten.length % W = 0 →
      (run_chunks det (AudioProcessor.init W false) chunks).2.length = chunks.flatten.length / W ∧
      (run_chunks det (AudioProcessor.init W false) chunks).1.audio_buffer = []) := by
  obtain ⟨h1, h2, h3, h4⟩ := run_chunks_vadoff_inv det chunks (AudioProcessor.init W false)
    rfl hW hc
  have hbs : (AudioProcessor.init W false).buffer_size = W := rfl
  have hab : (AudioProcessor.init W false).audio_buffer = [] := rfl
  rw [hbs] at h2 h3
  rw [hab, List.nil_append] at h4
  refine ⟨h3, h4, h2, ?_⟩
  intro hmod
  have hflat := flatten_length_const h3
  have hlen := congrArg List.length h4
  rw [List.length_append, hflat] at hlen
  have hrem0 : (run_chunks det (AudioProcessor.init W false) chunks).1.audio_buffer.length = 0 :=
    calc (run_chunks det (AudioProcessor.init W false) chunks).1.audio_buffer.length
        = (run_chunks det (AudioProcessor.init W false) chunks).1.audio_buffer.length % W :=
          (Nat.mod_eq_of_lt h2).symm
      _ = chunks.flatten.length % W := by rw [← hlen, Nat.mul_comm _ W, Nat.mul_add_mod]
      _ = 0 := hmod
  have hcount : chunks.flatten.length
      = (run_chunks det (AudioProcessor.init W false) chunks).2.length * W := by omega
  constructor
  · rw [hcount, Nat.mul_div_cancel _ hW]
  · exact List.length_eq_zero.mp hrem0

/-- C1 witness: two chunks of at most the window size, totalling two
windows, drive the amended theorem at a concrete input. -/
theorem c1_witness :
    (∀ w ∈ (run_chunks (fun _ => []) (AudioProcessor.init 2 false) [[0, 0], [1, 2]]).2,
      w.length = 2) ∧
    (run_chunks (fun _ => []) (AudioProcessor.init 2 false) [[0, 0], [1, 2]]).2.flatten ++
      (run_chunks (fun _ => []) (AudioProcessor.init 2 false) [[0, 0], [1, 2]]).1.audio_buffer
      = ([[0, 0], [1, 2]] : List (List Nat)).flatten ∧
    (run_chunks (fun _ => []) (AudioProcessor.init 2 false) [[0, 0], [1, 2]]).1.audio_buffer.length
      < 2 ∧
    (([[0, 0], [1, 2]] : List (List Nat)).flatten.length % 2 = 0 →
      (run_chunks (fun _ => []) (AudioProcessor.init 2 false) [[0, 0], [1, 2]]).2.length
        = ([[0, 0], [1, 2]] : List (List Nat)).flatten.length / 2 ∧
      (run_chunks (fun _ => []) (AudioProcessor.init 2 false) [[0, 0], [1, 2]]).1.audio_buffer
        = []) :=
  c1_segmenter_amended (fun _ => []) 2 [[0, 0], [1, 2]] (by decide) (by decide)

/-- C1 counterexample: a single `add_audio_chunk` call drains at most
one window, so one 4-byte chunk against a 2-byte window emits one
window, not `4 / 2 = 2`, although the total is a multiple of the
window size. -/
theorem c1_counterexample :
    ([[0, 0, 0, 0]] : List (List Nat)).flatten.length % 2 = 0 ∧
    ¬ ((run_chunks (fun _ => []) (AudioProcessor.init 2 false) [[0, 0, 0, 0]]).2.length
        = ([[0, 0, 0, 0]] : List (List Nat)).flatten.length / 2) := by
  decide

/-- C2: evaluation of the steady-state text-frame handling at a frame
that is not valid JSON and at a well-formed frame with an unrecognized
command.  The unknown command is indeed a no-op that keeps the loop
running, but the malformed frame makes `json.loads` raise out of the
`while True`, ending the connection loop — contradicting the claim that
a bad-JSON frame is a no-op for that frame only. -/
theorem c2_code_eval :
    loop_step_text (fun _ => none) (Session.new "s" 0 0) "not json"
      = LoopOutcome.raised (Session.new "s" 0 0) [] ∧
    loop_step_text (fun _ => some ⟨some "bogus"⟩) (Session.new "s" 0 0) "x"
      = LoopOutcome.next (Session.new "s" 0 0) [] := by
  decide

/-- C3: evaluation of the suspension-point trace of the loop body for a
non-empty final transcription: the action dispatch is awaited, so its
completion strictly precedes the next frame read — contradicting the
claim that the loop does not await dispatch completion before reading
the next frame. -/
theorem c3_code_eval :
    loop_body_trace "Create an issue about the login bug please." true
      = [LoopEvent.sent_transcription, LoopEvent.sent_sentence_complete,
         LoopEvent.action_dispatch_started, LoopEvent.action_dispatch_completed,
         LoopEvent.read_next_frame] ∧
    (loop_body_trace "Create an issue about the login bug please." true).indexOf
        LoopEvent.action_dispatch_completed <
      (loop_body_trace "Create an issue about the login bug please." true).indexOf
        LoopEvent.read_next_frame := by
  decide

/-- C4: the finality heuristic classifies every string as claimed — not
final whenever the stripped text is shorter than 20 characters; final
whenever it is at least 20 characters and ends in a sentence
terminator; final whenever it is at least 20 characters and exceeds 25
whitespace-delimited words; and not final in every other case. -/
theorem c4_finality_heuristic (text : String) :
    ((pyStrip text).length < 20 → is_sentence_complete text = false) ∧
    (20 ≤ (pyStrip text).length →
      sentence_endings.any (fun e => pyEndsWith1 (pyStrip text) e) = true →
      is_sentence_complete text = true) ∧
    (20 ≤ (pyStrip text).length → 25 < (pyWords (pyStrip text)).length →
      is_sentence_complete text = true) ∧
    (20 ≤ (pyStrip text).length →
      sentence_endings.any (fun e => pyEndsWith1 (pyStrip text) e) = false →
      (pyWords (pyStrip text)).length ≤ 25 →
      is_sentence_complete text = false) := by
  by_cases h0 : text = ""
  · subst h0
    exact ⟨fun _ => rfl,
      fun h => absurd h (by decide),
      fun h => absurd h (by decide),
      fun h => absurd h (by decide)⟩
  · simp only [is_sentence_complete, if_neg h0]
    refine ⟨?_, ?_, ?_, ?_⟩
    · intro hlen
      rw [if_pos hlen]
    · intro hlen hend
      rw [if_neg (by omega), if_pos hend]
    · intro hlen hwords
      rw [if_neg (by omega)]
      by_cases hend : sentence_endings.any (fun e => pyEndsWith1 (pyStrip text) e) = true
      · rw [if_pos hend]
      · rw [if_neg hend, if_pos hwords]
    · intro hlen hend hwords
      rw [if_neg (by omega), if_neg (by simp [hend]), if_neg (by omega)]

/-- C4 witness: the four branches of the heuristic at concrete
strings — a 2-character text, a punctuated 26-character sentence, a
26-word unpunctuated text, and a 6-word unpunctuated text. -/
theorem c4_witness :
    is_sentence_complete "hi" = false ∧
    is_sentence_complete "This is a longer sentence." = true ∧
    is_sentence_complete "a b c d e f g h i j k l m n o p q r s t u v w x y z" = true ∧
    is_sentence_complete "word word word word word word" = false :=
  ⟨(c4_finality_heuristic "hi").1 (by decide),
   (c4_finality_heuristic "This is a longer sentence.").2.1 (by decide) (by decide),
   (c4_finality_heuristic "a b c d e f g h i j k l m n o p q r s t u v w x y z").2.2.1
     (by decide) (by decide),
   (c4_finality_heuristic "word word word word word word").2.2.2
     (by decide) (by decide) (by decide)⟩

/-- C5 (amended): when every engine call raises, `transcribe_stream`
returns empty text, `is_final = false`, and the input context truncated
to its last 100 words — which equals the input unchanged exactly when
the input holds at most 100 words — and, being a total function of the
engine outcome, propagates nothing. -/
theorem c5_engine_failure_amended (engine : String → Option (List WSegment))
    (context_words : Option (List String)) (hfail : ∀ p, engine p = none) :
    transcribe_stream engine context_words
      = ("", false, contextTail (context_words.getD [])) ∧
    ((context_words.getD []).length ≤ 100 →
      contextTail (context_words.getD []) = context_words.getD []) := by
  constructor
  · simp only [transcribe_stream, hfail]
    by_cases hcw : contextTail (context_words.getD []) = []
    · simp [hcw]
    · simp [hcw]
  · intro hle
    unfold contextTail
    rw [if_neg (by omega)]

/-- C5 witness: a two-word context with a raising engine drives the
amended theorem at a concrete input. -/
theorem c5_witness :
    transcribe_stream (fun _ => none) (some ["alpha", "beta"])
      = ("", false, contextTail ["alpha", "beta"]) ∧
    ((["alpha", "beta"] : List String).length ≤ 100 →
      contextTail ["alpha", "beta"] = ["alpha", "beta"]) :=
  c5_engine_failure_amended (fun _ => none) (some ["alpha", "beta"]) (fun _ => rfl)

/-- C5 counterexample: with a 101-word input context and a raising
engine, the returned context is the 100-word tail, not the input
sequence unchanged — the truncation of `whisper_client.py` line 48 has
already happened when the except clause returns. -/
theorem c5_counterexample :
    transcribe_stream (fun _ => none) (some (List.replicate 101 "w"))
      ≠ ("", false, List.replicate 101 "w") := by
  decide

/-- C9: `add_to_transcript` pushes the stripped text onto the history
and clears the buffer exactly for non-blank finals; otherwise it
replaces the buffer with the text (so repeating a non-final append is
idempotent), and a blank final leaves the history unchanged. -/
theorem c9_append (s : Session) (text : String) :
    (pyStrip text ≠ "" →
      add_to_transcript s text true
        = { s with full_transcript := s.full_transcript ++ [pyStrip text],
                   current_buffer := "" }) ∧
    (∀ is_final : Bool, is_final = false ∨ pyStrip text = "" →
      add_to_transcript s text is_final = { s with current_buffer := text }) ∧
    (add_to_transcript (add_to_transcript s text false) text false
      = add_to_transcript s text false) ∧
    ((add_to_transcript s "" true).full_transcript = s.full_transcript) := by
  refine ⟨?_, ?_, ?_, ?_⟩
  · intro h
    simp [add_to_transcript, h]
  · intro f hf
    rcases hf with hf | hf
    · subst hf
      simp [add_to_transcript]
    · simp [add_to_transcript, hf]
  · simp [add_to_transcript]
  · have hblank : pyStrip "" = "" := rfl
    simp [add_to_transcript, hblank]

/-- C9 witness: a non-blank final append and a blank final append on a
concrete session drive the theorem. -/
theorem c9_witness :
    add_to_transcript (Session.new "s" 0 0) " hello there. " true
      = { Session.new "s" 0 0 with
            full_transcript := (Session.new "s" 0 0).full_transcript
              ++ [pyStrip " hello there. "],
            current_buffer := "" } ∧
    add_to_transcript (Session.new "s" 0 0) "partial" false
      = { Session.new "s" 0 0 with current_buffer := "partial" } ∧
    (add_to_transcript (Session.new "s" 0 0) "" true).full_transcript
      = (Session.new "s" 0 0).full_transcript :=
  ⟨(c9_append (Session.new "s" 0 0) " hello there. ").1 (by decide),
   (c9_append (Session.new "s" 0 0) "partial").2.1 false (Or.inl rfl),
   (c9_append (Session.new "s" 0 0) "").2.2.2⟩

/-- Lookup after overwrite at the same key. -/
theorem dictGet_dictSet_self (m : Registry) (k : String) (v : Session) :
    dictGet (dictSet m k v) k = some v := by
  induction m with
  | nil => simp [dictGet, dictSet]
  | cons e rest ih =>
    by_cases he : e.1 = k
    · simp [dictSet, dictGet, he]
    · simp [dictSet, dictGet, he, ih]

/-- Lookup after overwrite at a different key. -/
theorem dictGet_dictSet_ne (m : Registry) (k k' : String) (v : Session)
    (h : k' ≠ k) : dictGet (dictSet m k v) k' = dictGet m k' := by
  have hne : ¬(k = k') := fun h' => h h'.symm
  induction m with
  | nil => simp [dictGet, dictSet, hne]
  | cons e rest ih =>
    by_cases he : e.1 = k
    · subst he
      simp [dictSet, dictGet, hne]
    · by_cases he' : e.1 = k'
      · simp [dictSet, dictGet, he, he', h]
      · simp [dictSet, dictGet, he, he', ih]

/-- Lookup after erase at the erased key. -/
theorem dictGet_dictErase_self (m : Registry) (k : String) :
    dictGet (dictErase m k) k = none := by
  induction m with
  | nil => simp [dictGet, dictErase]
  | cons e rest ih =>
    by_cases he : e.1 = k
    · simp [dictErase, he, ih]
    · simp [dictErase, dictGet, he, ih]

/-- Lookup after erase at another key. -/
theorem dictGet_dictErase_ne (m : Registry) (k k' : String) (h : k' ≠ k) :
    dictGet (dictErase m k) k' = dictGet m k' := by
  have hne : ¬(k = k') := fun h' => h h'.symm
  induction m with
  | nil => simp [dictErase]
  | cons e rest ih =>
    by_cases he : e.1 = k
    · subst he
      simp [dictErase, dictGet, hne, ih]
    · by_cases he' : e.1 = k'
      · simp [dictErase, dictGet, he, he', h]
      · simp [dictErase, dictGet, he, he', ih]

/-- C6: `create_or_resume_session` resumes in place — preserving
transcript, word context and action ledger — and reports
`resumed = true` exactly when a truthy id names an existing paused
session; with no id, an unknown id, or an id naming a non-paused
session it builds a brand-new session (empty transcript, word context
and ledger, so the existing session is never handed over) and reports
`resumed = false`. -/
theorem c6_create_or_resume (m : SessionManager) (ws : Nat)
    (metadata : List (String × String)) (now : Int) (fresh : String) :
    (∀ sid s, sid ≠ "" → dictGet m.sessions sid = some s → s.is_paused = true →
      create_or_resume_session m ws (some sid) metadata now fresh
        = ({ m with sessions := dictSet m.sessions sid (s.resume ws now) },
           s.resume ws now, true) ∧
      (s.resume ws now).full_transcript = s.full_transcript ∧
      (s.resume ws now).word_history = s.word_history ∧
      (s.resume ws now).executed_actions = s.executed_actions) ∧
    (∀ sid s, sid ≠ "" → dictGet m.sessions sid = some s → s.is_paused = false →
      create_or_resume_session m ws (some sid) metadata now fresh
        = ({ m with sessions := dictSet m.sessions sid (new_session_with sid ws now metadata) },
           new_session_with sid ws now metadata, false)) ∧
    (∀ sid, sid ≠ "" → dictGet m.sessions sid = none →
      create_or_resume_session m ws (some sid) metadata now fresh
        = ({ m with sessions := dictSet m.sessions sid (new_session_with sid ws now metadata) },
           new_session_with sid ws now metadata, false)) ∧
    (create_or_resume_session m ws none metadata now fresh
      = ({ m with sessions := dictSet m.sessions fresh (new_session_with fresh ws now metadata) },
         new_session_with fresh ws now metadata, false)) ∧
    (∀ id, (new_session_with id ws now metadata).full_transcript = [] ∧
      (new_session_with id ws now metadata).word_history = [] ∧
      (new_session_with id ws now metadata).executed_actions = []) := by
  refine ⟨?_, ?_, ?_, ?_, ?_⟩
  · intro sid s hsid hget hp
    refine ⟨?_, rfl, rfl, rfl⟩
    simp only [create_or_resume_session, Option.getD_some, hget]
    rw [if_pos ⟨hsid, hp⟩]
  · intro sid s hsid hget hp
    simp only [create_or_resume_session, Option.getD_some, hget]
    rw [if_neg (by simp [hp]), if_pos hsid]
  · intro sid hsid hget
    simp only [create_or_resume_session, Option.getD_some, hget]
    rw [if_pos hsid]
  · simp only [create_or_resume_session]
  · intro id
    unfold new_session_with
    by_cases hm : metadata ≠ [] <;> simp [hm, Session.new]

/-- C6 witness: a one-entry registry holding a paused session with
history drives the resume case of the theorem at concrete inputs. -/
theorem c6_witness :
    create_or_resume_session
        ⟨[("sid1", Session.pause
            (add_to_transcript (Session.new "sid1" 7 0) "hello there world." true) 3)], 30⟩
        9 (some "sid1") [] 5 "freshid"
      = (⟨dictSet
            [("sid1", Session.pause
              (add_to_transcript (Session.new "sid1" 7 0) "hello there world." true) 3)]
            "sid1"
            ((Session.pause
              (add_to_transcript (Session.new "sid1" 7 0) "hello there world." true) 3).resume 9 5),
          30⟩,
         (Session.pause
            (add_to_transcript (Session.new "sid1" 7 0) "hello there world." true) 3).resume 9 5,
         true) ∧
    ((Session.pause
        (add_to_transcript (Session.new "sid1" 7 0) "hello there world." true) 3).resume 9 5).full_transcript
      = (Session.pause
          (add_to_transcript (Session.new "sid1" 7 0) "hello there world." true) 3).full_transcript ∧
    ((Session.pause
        (add_to_transcript (Session.new "sid1" 7 0) "hello there world." true) 3).resume 9 5).word_history
      = (Session.pause
          (add_to_transcript (Session.new "sid1" 7 0) "hello there world." true) 3).word_history ∧
    ((Session.pause
        (add_to_transcript (Session.new "sid1" 7 0) "hello there world." true) 3).resume 9 5).executed_actions
      = (Session.pause
          (add_to_transcript (Session.new "sid1" 7 0) "hello there world." true) 3).executed_actions :=
  (c6_create_or_resume
      ⟨[("sid1", Session.pause
          (add_to_transcript (Session.new "sid1" 7 0) "hello there world." true) 3)], 30⟩
      9 [] 5 "freshid").1
    "sid1"
    (Session.pause (add_to_transcript (Session.new "sid1" 7 0) "hello there world." true) 3)
    (by decide) (by decide) (by decide)

/-- C10: calling `create_or_resume_session` with the id of an existing
non-paused session overwrites the registry entry with a brand-new empty
session under that same id: the call reports `resumed = false` and
returns the fresh session, the registry now maps the id to the fresh
session, a subsequent `get_session` with that id returns the fresh
session (activity refreshed), and the old session object is no longer
reachable under that id. -/
theorem c10_overwrite (m : SessionManager) (ws : Nat)
    (metadata : List (String × String)) (now now' : Int) (fresh sid : String)
    (old : Session) (hsid : sid ≠ "") (hget : dictGet m.sessions sid = some old)
    (hp : old.is_paused = false) :
    (create_or_resume_session m ws (some sid) metadata now fresh).2.2 = false ∧
    (create_or_resume_session m ws (some sid) metadata now fresh).2.1
      = new_session_with sid ws now metadata ∧
    dictGet (create_or_resume_session m ws (some sid) metadata now fresh).1.sessions sid
      = some (new_session_with sid ws now metadata) ∧
    (get_session (create_or_resume_session m ws (some sid) metadata now fresh).1 sid now').2
      = some { new_session_with sid ws now metadata with last_activity := now' } ∧
    (old ≠ new_session_with sid ws now metadata →
      dictGet (create_or_resume_session m ws (some sid) metadata now fresh).1.sessions sid
        ≠ some old) := by
  have hstep : create_or_resume_session m ws (some sid) metadata now fresh
      = ({ m with sessions := dictSet m.sessions sid (new_session_with sid ws now metadata) },
         new_session_with sid ws now metadata, false) := by
    simp only [create_or_resume_session, Option.getD_some, hget]
    rw [if_neg (by simp [hp]), if_pos hsid]
  rw [hstep]
  have hreg : dictGet (dictSet m.sessions sid (new_session_with sid ws now metadata)) sid
      = some (new_session_with sid ws now metadata) := dictGet_dictSet_self _ _ _
  refine ⟨rfl, rfl, hreg, ?_, ?_⟩
  · simp only [get_session, hreg]
  · intro hne hcontra
    rw [hreg] at hcontra
    exact hne (Option.some.inj hcontra).symm

/-- C10 witness: a registry holding an active (non-paused) session
under "sid1" drives the overwrite theorem at concrete inputs. -/
theorem c10_witness :
    (create_or_resume_session
        ⟨[("sid1", add_to_transcript (Session.new "sid1" 7 0) "hello there world." true)], 30⟩
        9 (some "sid1") [] 5 "freshid").2.2 = false ∧
    (create_or_resume_session
        ⟨[("sid1", add_to_transcript (Session.new "sid1" 7 0) "hello there world." true)], 30⟩
        9 (some "sid1") [] 5 "freshid").2.1
      = new_session_with "sid1" 9 5 [] ∧
    dictGet (create_or_resume_session
        ⟨[("sid1", add_to_transcript (Session.new "sid1" 7 0) "hello there world." true)], 30⟩
        9 (some "sid1") [] 5 "freshid").1.sessions "sid1"
      = some (new_session_with "sid1" 9 5 []) ∧
    (get_session (create_or_resume_session
        ⟨[("sid1", add_to_transcript (Session.new "sid1" 7 0) "hello there world." true)], 30⟩
        9 (some "sid1") [] 5 "freshid").1 "sid1" 6).2
      = some { new_session_with "sid1" 9 5 [] with last_activity := 6 } ∧
    (add_to_transcript (Session.new "sid1" 7 0) "hello there world." true
        ≠ new_session_with "sid1" 9 5 [] →
      dictGet (create_or_resume_session
          ⟨[("sid1", add_to_transcript (Session.new "sid1" 7 0) "hello there world." true)], 30⟩
          9 (some "sid1") [] 5 "freshid").1.sessions "sid1"
        ≠ some (add_to_transcript (Session.new "sid1" 7 0) "hello there world." true)) :=
  c10_overwrite
    ⟨[("sid1", add_to_transcript (Session.new "sid1" 7 0) "hello there world." true)], 30⟩
    9 [] 5 6 "freshid" "sid1"
    (add_to_transcript (Session.new "sid1" 7 0) "hello there world." true)
    (by decide) (by decide) (by decide)

/-- Membership of a lookup result. -/
theorem dictGet_mem {m : Registry} {k : String} {s : Session}
    (h : dictGet m k = some s) : (k, s) ∈ m := by
  induction m with
  | nil => simp [dictGet] at h
  | cons e rest ih =>
    by_cases he : e.1 = k
    · simp only [dictGet, if_pos he] at h
      obtain ⟨e1, e2⟩ := e
      simp only at he h
      have hks : (k, s) = (e1, e2) := by
        rw [← he, ← Option.some.inj h]
      rw [hks]
      exact List.mem_cons_self _ _
    · simp only [dictGet, if_neg he] at h
      exact List.mem_cons_of_mem _ (ih h)

/-- Under unique keys, membership determines the lookup result. -/
theorem dictGet_of_mem {m : Registry} {k : String} {s : Session}
    (hnd : (m.map Prod.fst).Nodup) (h : (k, s) ∈ m) : dictGet m k = some s := by
  induction m with
  | nil => simp at h
  | cons e rest ih =>
    rcases List.mem_cons.mp h with h | h
    · rw [← h]
      simp [dictGet]
    · have hnd' : e.1 ∉ rest.map Prod.fst ∧ (rest.map Prod.fst).Nodup := by
        rw [List.map_cons, List.nodup_cons] at hnd
        exact hnd
      have hk : k ∈ rest.map Prod.fst := List.mem_map.mpr ⟨(k, s), h, rfl⟩
      have he : ¬(e.1 = k) := by
        intro hek
        exact hnd'.1 (by rw [hek]; exact hk)
      simp only [dictGet, if_neg he]
      exact ih hnd'.2 h

/-- Registry component of the reap loop: folding `reapOne` over a list
of ids erases exactly those ids. -/
theorem foldl_reapOne_fst : ∀ (ids : List String) (st : Registry × List Nat),
    (ids.foldl reapOne st).1 = ids.foldl dictErase st.1 := by
  intro ids
  induction ids with
  | nil => intro st; rfl
  | cons id rest ih =>
    intro st
    have hstep : (reapOne st id).1 = dictErase st.1 id := by
      unfold reapOne
      cases dictGet st.1 id <;> rfl
    simp only [List.foldl_cons, ih, hstep]

/-- Lookup through a fold of erasures. -/
theorem dictGet_foldl_erase : ∀ (ids : List String) (m : Registry) (k : String),
    dictGet (ids.foldl dictErase m) k = if k ∈ ids then none else dictGet m k := by
  intro ids
  induction ids with
  | nil => intro m k; simp
  | cons id rest ih =>
    intro m k
    by_cases hk : k ∈ rest
    · simp [List.foldl_cons, ih, hk]
    · by_cases hid : k = id
      · subst hid
        simp [List.foldl_cons, ih, hk, dictGet_dictErase_self]
      · simp [List.foldl_cons, ih, hk, hid, dictGet_dictErase_ne m id k hid]

/-- Close attempts only accumulate across the reap loop. -/
theorem mem_foldl_reapOne_snd_of_mem : ∀ (ids : List String) (st : Registry × List Nat)
    (w : Nat), w ∈ st.2 → w ∈ (ids.foldl reapOne st).2 := by
  intro ids
  induction ids with
  | nil => intro st w hw; exact hw
  | cons id rest ih =>
    intro st w hw
    refine ih (reapOne st id) w ?_
    unfold reapOne
    cases h : dictGet st.1 id with
    | none => exact hw
    | some s => exact List.mem_append.mpr (Or.inl hw)

/-- Close attempt for a reaped session with a live handle: if a listed
id resolves to a session whose `websocket` is present, its handle is
among the close attempts of the loop. -/
theorem mem_foldl_reapOne_snd : ∀ (ids : List String) (st : Registry × List Nat)
    (k : String) (s : Session) (w : Nat),
    k ∈ ids → dictGet st.1 k = some s → s.websocket = some w →
    w ∈ (ids.foldl reapOne st).2 := by
  intro ids
  induction ids with
  | nil => intro st k s w hk; simp at hk
  | cons id rest ih =>
    intro st k s w hk hget hws
    by_cases hkid : k = id
    · subst hkid
      refine mem_foldl_reapOne_snd_of_mem rest (reapOne st k) w ?_
      simp [reapOne, hget, hws]
    · rcases List.mem_cons.mp hk with h | h
      · exact absurd h hkid
      · refine ih (reapOne st id) k s w h ?_ hws
        have : (reapOne st id).1 = dictErase st.1 id := by
          unfold reapOne
          cases dictGet st.1 id <;> rfl
        rw [this, dictGet_dictErase_ne st.1 id k hkid]
        exact hget

/-- Under unique keys, whether a key appears in the reap list is decided
by the `reapCondition` of its own session. -/
theorem mem_inactiveIds_iff (m : Registry) (now persistence timeout : Int)
    (k : String) (s : Session) (hnd : (m.map Prod.fst).Nodup)
    (hget : dictGet m k = some s) :
    k ∈ inactiveIds m now persistence timeout ↔
      reapCondition now persistence timeout s = true := by
  unfold inactiveIds
  rw [List.mem_filterMap]
  constructor
  · rintro ⟨e, he, hf⟩
    by_cases hc : reapCondition now persistence timeout e.2 = true
    · rw [if_pos hc] at hf
      have hek : e.1 = k := Option.some.inj hf
      have : dictGet m k = some e.2 := by
        refine dictGet_of_mem hnd ?_
        rw [← hek]
        exact he
      rw [hget] at this
      have hse : s = e.2 := Option.some.inj this
      rw [hse]
      exact hc
    · rw [if_neg hc] at hf
      exact absurd hf (by simp)
  · intro hc
    exact ⟨(k, s), dictGet_mem hget, by simp [hc]⟩

/-- C7: in one reaper pass, a paused session (with a pause stamp) is
removed if and only if `now - paused_at` strictly exceeds the
persistence window — so pausing for exactly the threshold survives —
and a non-paused session is removed if and only if
`now - last_activity` strictly exceeds the activity timeout; whenever
the removed session holds a live connection handle, a close of that
handle is attempted (close failures are swallowed by construction and
cannot affect the pass). -/
theorem c7_reaper_pass (m : Registry) (now persistence timeout : Int)
    (hnd : (m.map Prod.fst).Nodup) (sid : String) (s : Session)
    (hget : dictGet m sid = some s) :
    (s.is_paused = true → ∀ pt, s.paused_at = some pt →
      (dictGet (cleanup_pass m now persistence timeout).1 sid = none ↔
        now - pt > persistence)) ∧
    (s.is_paused = false →
      (dictGet (cleanup_pass m now persistence timeout).1 sid = none ↔
        now - s.last_activity > timeout)) ∧
    (reapCondition now persistence timeout s = true → ∀ w, s.websocket = some w →
      w ∈ (cleanup_pass m now persistence timeout).2) := by
  have hfst : (cleanup_pass m now persistence timeout).1
      = (inactiveIds m now persistence timeout).foldl dictErase m :=
    foldl_reapOne_fst _ _
  have hmem := mem_inactiveIds_iff m now persistence timeout sid s hnd hget
  have hkey : dictGet (cleanup_pass m now persistence timeout).1 sid = none ↔
      reapCondition now persistence timeout s = true := by
    rw [hfst, dictGet_foldl_erase]
    by_cases hin : sid ∈ inactiveIds m now persistence timeout
    · simp [hin, hmem.mp hin]
    · simp only [if_neg hin, hget]
      constructor
      · intro h; exact absurd h (by simp)
      · intro hc; exact absurd (hmem.mpr hc) hin
  refine ⟨?_, ?_, ?_⟩
  · intro hp pt hpt
    rw [hkey]
    simp [reapCondition, hp, hpt]
  · intro hp
    rw [hkey]
    simp [reapCondition, hp]
  · intro hc w hws
    exact mem_foldl_reapOne_snd _ (m, []) sid s w (hmem.mpr hc) hget hws

/-- C7 witness: a two-session registry — one paused for exactly the
persistence window (survives), one paused for one tick longer
(removed, handle closed) — drives the theorem at concrete inputs. -/
theorem c7_witness :
    ((Session.pause (Session.new "a" 1 0) 0).is_paused = true →
      ∀ pt, (Session.pause (Session.new "a" 1 0) 0).paused_at = some pt →
      (dictGet (cleanup_pass
          [("a", Session.pause (Session.new "a" 1 0) 0),
           ("b", Session.pause (Session.new "b" 2 0) (-1))] 10 10 30).1 "a" = none ↔
        (10 : Int) - pt > 10)) ∧
    ((Session.pause (Session.new "b" 2 0) (-1)).is_paused = true →
      ∀ pt, (Session.pause (Session.new "b" 2 0) (-1)).paused_at = some pt →
      (dictGet (cleanup_pass
          [("a", Session.pause (Session.new "a" 1 0) 0),
           ("b", Session.pause (Session.new "b" 2 0) (-1))] 10 10 30).1 "b" = none ↔
        (10 : Int) - pt > 10)) :=
  ⟨(c7_reaper_pass
      [("a", Session.pause (Session.new "a" 1 0) 0),
       ("b", Session.pause (Session.new "b" 2 0) (-1))] 10 10 30
      (by decide) "a" (Session.pause (Session.new "a" 1 0) 0) (by decide)).1,
   (c7_reaper_pass
      [("a", Session.pause (Session.new "a" 1 0) 0),
       ("b", Session.pause (Session.new "b" 2 0) (-1))] 10 10 30
      (by decide) "b" (Session.pause (Session.new "b" 2 0) (-1)) (by decide)).1⟩

/-- One `_detect_speech` call on a window above the speech-ratio
threshold: the speech counter increments, the silence counter resets,
and the flag turns on once the speech run reaches 2. -/
theorem detect_speech_speech (w : List (Option Bool)) (st : VadState)
    (hw : isSpeechWindow w = true) :
    (detect_speech w st).1
      = ⟨st.speech_frames + 1, 0,
         if st.speech_frames + 1 ≥ 2 then true else st.is_speech_active⟩ := by
  unfold isSpeechWindow at hw
  unfold detect_speech
  cases hcs : countSpeech w with
  | none => rw [hcs] at hw; simp at hw
  | some c =>
    rw [hcs] at hw
    have hgt : 10 * c > 3 * w.length := by simpa using hw
    simp [hgt]

/-- One `_detect_speech` call on a counted window at or below the
speech-ratio threshold: the silence counter increments, the speech
counter resets, and the flag turns off once the silence run reaches
30. -/
theorem detect_speech_silence (w : List (Option Bool)) (st : VadState)
    (hcount : windowCounted w = true) (hw : isSpeechWindow w = false) :
    (detect_speech w st).1
      = ⟨0, st.silence_frames + 1,
         if st.silence_frames + 1 ≥ 30 then false else st.is_speech_active⟩ := by
  unfold windowCounted at hcount
  unfold isSpeechWindow at hw
  unfold detect_speech
  cases hcs : countSpeech w with
  | none => rw [hcs] at hcount; simp at hcount
  | some c =>
    rw [hcs] at hw
    have hle : ¬(10 * c > 3 * w.length) := by simpa using hw
    simp [hle]

/-- Unfolding step of `runVad`. -/
theorem runVad_cons (st : VadState) (w : List (Option Bool))
    (ws : List (List (Option Bool))) :
    runVad st (w :: ws) = runVad (detect_speech w st).1 ws := rfl

/-- Closed form of a run of speech windows: counters and flag after
feeding `ws` consecutive above-threshold windows. -/
theorem runVad_speech : ∀ (ws : List (List (Option Bool))) (st : VadState),
    (∀ w ∈ ws, isSpeechWindow w = true) →
    runVad st ws
      = ⟨st.speech_frames + ws.length,
         if ws.length = 0 then st.silence_frames else 0,
         if 1 ≤ ws.length ∧ 2 ≤ st.speech_frames + ws.length then true
           else st.is_speech_active⟩ := by
  intro ws
  induction ws with
  | nil =>
    intro st _
    obtain ⟨sf, sif, a⟩ := st
    simp [runVad]
  | cons w rest ih =>
    intro st h
    have hw := h w (List.mem_cons_self _ _)
    have hrest : ∀ x ∈ rest, isSpeechWindow x = true :=
      fun x hx => h x (List.mem_cons_of_mem _ hx)
    rw [runVad_cons, detect_speech_speech w st hw, ih _ hrest]
    simp only [VadState.mk.injEq, List.length_cons, ge_iff_le]
    refine ⟨by omega, by simp, ?_⟩
    split_ifs <;> first | rfl | omega

/-- Closed form of a run of silence windows: counters and flag after
feeding `ws` consecutive counted below-threshold windows. -/
theorem runVad_silence : ∀ (ws : List (List (Option Bool))) (st : VadState),
    (∀ w ∈ ws, windowCounted w = true ∧ isSpeechWindow w = false) →
    runVad st ws
      = ⟨if ws.length = 0 then st.speech_frames else 0,
         st.silence_frames + ws.length,
         if 1 ≤ ws.length ∧ 30 ≤ st.silence_frames + ws.length then false
           else st.is_speech_active⟩ := by
  intro ws
  induction ws with
  | nil =>
    intro st _
    obtain ⟨sf, sif, a⟩ := st
    simp [runVad]
  | cons w rest ih =>
    intro st h
    have hw := h w (List.mem_cons_self _ _)
    have hrest : ∀ x ∈ rest, windowCounted x = true ∧ isSpeechWindow x = false :=
      fun x hx => h x (List.mem_cons_of_mem _ hx)
    rw [runVad_cons, detect_speech_silence w st hw.1 hw.2, ih _ hrest]
    simp only [VadState.mk.injEq, List.length_cons, ge_iff_le]
    refine ⟨by simp, by omega, ?_⟩
    split_ifs <;> first | rfl | omega

/-- C8: the VAD hysteresis — from an inactive state with a clean speech
counter, a run of fewer than 2 above-threshold windows leaves the flag
off while a run of exactly 2 turns it on; from an active state with a
clean silence counter, the flag turns off exactly when 30 consecutive
counted below-threshold windows have been fed (a window is
above-threshold when its sub-frame speech ratio exceeds 0.3, as
`isSpeechWindow` encodes); and every speech window resets the silence
counter while every counted silence window resets the speech
counter. -/
theorem c8_vad_hysteresis :
    (∀ (st : VadState) (ws : List (List (Option Bool))),
      st.is_speech_active = false → st.speech_frames = 0 →
      (∀ w ∈ ws, isSpeechWindow w = true) → ws.length < 2 →
      (runVad st ws).is_speech_active = false) ∧
    (∀ (st : VadState) (ws : List (List (Option Bool))),
      st.is_speech_active = false → st.speech_frames = 0 →
      (∀ w ∈ ws, isSpeechWindow w = true) → ws.length = 2 →
      (runVad st ws).is_speech_active = true) ∧
    (∀ (st : VadState) (ws : List (List (Option Bool))),
      st.is_speech_active = true → st.silence_frames = 0 →
      (∀ w ∈ ws, windowCounted w = true ∧ isSpeechWindow w = false) →
      ((runVad st ws).is_speech_active = false ↔ 30 ≤ ws.length)) ∧
    (∀ (st : VadState) (w : List (Option Bool)),
      isSpeechWindow w = true → (detect_speech w st).1.silence_frames = 0) ∧
    (∀ (st : VadState) (w : List (Option Bool)),
      windowCounted w = true → isSpeechWindow w = false →
      (detect_speech w st).1.speech_frames = 0) := by
  refine ⟨?_, ?_, ?_, ?_, ?_⟩
  · intro st ws ha hsf h hlen
    rw [runVad_speech ws st h]
    show (if 1 ≤ ws.length ∧ 2 ≤ st.speech_frames + ws.length then true
      else st.is_speech_active) = false
    rw [hsf, ha, if_neg (by omega)]
  · intro st ws ha hsf h hlen
    rw [runVad_speech ws st h]
    show (if 1 ≤ ws.length ∧ 2 ≤ st.speech_frames + ws.length then true
      else st.is_speech_active) = true
    rw [hsf, hlen, if_pos (by omega)]
  · intro st ws ha hsif h
    rw [runVad_silence ws st h]
    show (if 1 ≤ ws.length ∧ 30 ≤ st.silence_frames + ws.length then false
      else st.is_speech_active) = false ↔ 30 ≤ ws.length
    rw [hsif, ha]
    by_cases h30 : 30 ≤ ws.length
    · rw [if_pos (by omega)]
      simp [h30]
    · rw [if_neg (by omega)]
      simp [h30]
  · intro st w hw
    rw [detect_speech_speech w st hw]
  · intro st w hc hw
    rw [detect_speech_silence w st hc hw]

/-- C8 witness: two one-frame speech windows flip the flag on from the
fresh state, and thirty counted silence windows flip it off from an
active state, at concrete inputs. -/
theorem c8_witness :
    (runVad ⟨0, 0, false⟩ [[some true], [some true]]).is_speech_active = true ∧
    ((runVad ⟨0, 0, true⟩ (List.replicate 30 [some false])).is_speech_active = false ↔
      30 ≤ (List.replicate 30 [some false]).length) ∧
    (runVad ⟨0, 0, false⟩ [[some true]]).is_speech_active = false :=
  ⟨c8_vad_hysteresis.2.1 ⟨0, 0, false⟩ [[some true], [some true]]
      rfl rfl (by decide) rfl,
   c8_vad_hysteresis.2.2.1 ⟨0, 0, true⟩ (List.replicate 30 [some false])
      rfl rfl (by decide),
   c8_vad_hysteresis.1 ⟨0, 0, false⟩ [[some true]] rfl rfl (by decide) (by decide)⟩

end BrexHack
